import Mathlib

/-!
Verification of the todo-hotel task manager (Flask + SQLAlchemy + SQLite).

This file gives a shallow embedding of the core logic of the repository:

  * `app/utils.py` — `get_target_weekend`, `parse_due_date`,
    `validate_task_data`, `check_duplicate_task`, `create_task_if_not_exists`;
  * `app/models.py` — the `Task` entity (note: `__table_args__` declares only
    two plain, non-unique indexes; there is no uniqueness constraint on
    `(title, due_date)`, as the comment in the source explains, because
    SQLite cannot express a conditional unique constraint);
  * `app/routes_main.py` — the web routes `toggle_task`, `edit_task`,
    `delete_task`, `create_task_web`, and the pure grouping cores of
    `render_all_tasks` and `render_completed_tasks`;
  * `app/routes_api.py` — `create_task` (POST) and `get_tasks` (GET).

Modelling conventions:

  * Calendar dates are integers counting days, with day 0 = 0001-01-01 in the
    proleptic Gregorian calendar (Python `date.toordinal() - 1`), so that
    `d % 7` is the Python `date.weekday()` (Monday = 0 ... Sunday = 6).
  * Timestamps (`done_at`, `created_at`) are integers (minutes since an
    arbitrary UTC epoch that is a local midnight); converting a UTC timestamp
    to a local calendar date adds the timezone offset and floor-divides by
    1440, mirroring `done_at.replace(tzinfo=utc).astimezone().date()`.
  * Python `str.strip()` is modelled by `pyStrip` over the string characters.
  * The SQLAlchemy session is modelled by a `Store` holding the task list and
    the next autoincrement id; each route returns its response together with
    the store after commit.
  * `ORDER BY` clauses and Python `sorted(...)` are modelled with
    `List.insertionSort`, a stable executable sort.
-/

namespace TodoHotel

/-! ### Calendar arithmetic (model of Python `datetime.date`) -/

/-- Gregorian leap-year rule, as used by `datetime.date`. -/
def isLeapYear (y : Nat) : Bool :=
  y % 4 == 0 && (y % 100 != 0 || y % 400 == 0)

/-- Number of days in month `m` of year `y` (`m` is 1-based). -/
def daysInMonth (y m : Nat) : Nat :=
  if m == 2 then (if isLeapYear y then 29 else 28)
  else if m == 4 || m == 6 || m == 9 || m == 11 then 30
  else 31

/-- Days in year `y` strictly before month `m` (1-based). -/
def daysBeforeMonth (y m : Nat) : Nat :=
  let base :=
    match m with
    | 1 => 0 | 2 => 31 | 3 => 59 | 4 => 90 | 5 => 120 | 6 => 151
    | 7 => 181 | 8 => 212 | 9 => 243 | 10 => 273 | 11 => 304 | _ => 334
  if isLeapYear y && m > 2 then base + 1 else base

/-- Day index of a calendar date: `date(y, m, d).toordinal() - 1`, so that
day 0 (0001-01-01) is a Monday and `dayIndex % 7 = weekday` (Monday = 0). -/
def dayIndex (y m d : Nat) : Int :=
  (365 * (y - 1) + (y - 1) / 4 - (y - 1) / 100 + (y - 1) / 400
    + daysBeforeMonth y m + (d - 1) : Nat)

/-! ### String helpers (models of Python `str` operations) -/

/-- Model of Python `str.strip()`: remove leading and trailing whitespace. -/
def pyStrip (s : String) : String :=
  ⟨((s.data.dropWhile Char.isWhitespace).reverse.dropWhile Char.isWhitespace).reverse⟩

/-- Model of Python `str.split('-')`: split a character list at every dash. -/
def splitDash : List Char → List (List Char)
  | [] => [[]]
  | c :: rest =>
    let r := splitDash rest
    if c = '-' then [] :: r
    else
      match r with
      | g :: gs => (c :: g) :: gs
      | [] => [[c]]

/-- Numeric value of a digit-only, non-empty character list; `none` otherwise. -/
def digitsVal (l : List Char) : Option Nat :=
  if l ≠ [] ∧ l.all Char.isDigit then
    some (l.foldl (fun n c => 10 * n + (c.toNat - 48)) 0)
  else none

/-- Model of `parse_due_date` (`app/utils.py`): strip the string, parse it with
`datetime.strptime(s, "%Y-%m-%d")` and return the date, or `None` on failure.
`%Y` matches 1–4 digits and `%m`/`%d` match 1–2 digits; the month must be in
1–12 and the day must exist in that month (Gregorian, leap years included).
The result is returned as a day index (see `dayIndex`). -/
def parse_due_date (s : String) : Option Int :=
  match splitDash (pyStrip s).data with
  | [ys, ms, ds] =>
    match digitsVal ys, digitsVal ms, digitsVal ds with
    | some y, some m, some d =>
      if ys.length ≤ 4 ∧ ms.length ≤ 2 ∧ ds.length ≤ 2
          ∧ 1 ≤ y ∧ 1 ≤ m ∧ m ≤ 12 ∧ 1 ≤ d ∧ d ≤ daysInMonth y m then
        some (dayIndex y m d)
      else none
    | _, _, _ => none
  | _ => none

/-! ### WeekendCalculator: `get_target_weekend` (`app/utils.py`) -/

/-- Model of `get_target_weekend`: from a reference date (day index), return
the `(friday, saturday, sunday)` triple of the target weekend.  The wall-clock
default (`reference_date=None`) is modelled by always passing the reference
date explicitly. -/
def get_target_weekend (reference_date : Int) : Int × Int × Int :=
  let weekday := reference_date % 7
  let friday :=
    if weekday = 4 ∨ weekday = 5 ∨ weekday = 6 then
      reference_date - (weekday - 4)
    else
      reference_date + (4 - weekday)
  (friday, friday + 1, friday + 2)

/-! ### Data model: the `Task` entity (`app/models.py`) and the store -/

/-- The `tasks` table row.  `models.py` declares only two non-unique indexes in
`__table_args__`; in particular there is no uniqueness constraint on
`(title, due_date)`, so inserting a duplicate pair never fails. -/
structure Task where
  id : Nat
  title : String
  due_date : Int
  is_done : Bool
  done_at : Option Int
  created_at : Int
  is_recurring : Bool
  display_order : Int
deriving DecidableEq

/-- The database session state: the rows of the `tasks` table (in insertion
order) and the next autoincrement primary key. -/
structure Store where
  tasks : List Task
  next_id : Nat
deriving DecidableEq

/-- The filter used by `check_duplicate_task` and `create_task_if_not_exists`:
an open task with the given title and due date. -/
def openMatch (title : String) (due_date : Int) (t : Task) : Bool :=
  t.title == title && t.due_date == due_date && t.is_done == false

/-- Model of `check_duplicate_task` (`app/utils.py`): does an open task with
the same `(title, due_date)` exist? -/
def check_duplicate_task (s : Store) (title : String) (due_date : Int) : Bool :=
  (s.tasks.find? (openMatch title due_date)).isSome

/-- Outcome tag of `create_task_if_not_exists`: HTTP 201 or 409. -/
inductive CreateStatus where
  | created
  | alreadyExists
deriving DecidableEq

/-- Model of `create_task_if_not_exists` (`app/utils.py`).  The duplicate
pre-check (`check_duplicate_task` followed by the re-query with `.first()`)
is fused into one `find?`.  If no open duplicate exists, the insert always
succeeds: the table has no uniqueness constraint on `(title, due_date)`
(see `Task`), so the `IntegrityError` fallback in the source can never be
reached by a duplicate pair and is dead code in this model. -/
def create_task_if_not_exists (s : Store) (title : String) (due_date : Int)
    (is_recurring : Bool) (display_order : Int) (now : Int) :
    Task × CreateStatus × Store :=
  match s.tasks.find? (openMatch title due_date) with
  | some existing_task => (existing_task, .alreadyExists, s)
  | none =>
    let new_task : Task :=
      { id := s.next_id
        title := title
        due_date := due_date
        is_done := false
        done_at := none
        created_at := now
        is_recurring := is_recurring
        display_order := display_order }
    (new_task, .created, ⟨s.tasks ++ [new_task], s.next_id + 1⟩)

/-- The invariant of the spec: among open tasks, no two rows share the same
`(title, due_date)` pair. -/
def openDupFree (s : Store) : Prop :=
  s.tasks.Pairwise (fun a b =>
    ¬(a.is_done = false ∧ b.is_done = false ∧ a.title = b.title ∧ a.due_date = b.due_date))

instance : DecidablePred openDupFree := fun s => by
  unfold openDupFree
  exact List.instDecidablePairwise s.tasks

/-! ### Validation (`validate_task_data`, `app/utils.py`) and the JSON API -/

/-- A JSON value, as far as the validation code inspects one: the `isinstance
(..., bool)` check on `is_recurring` distinguishes booleans from every other
JSON value. -/
inductive JVal where
  | bool (b : Bool)
  | str (s : String)
  | num (n : Int)
  | null
deriving DecidableEq

/-- Model of `validate_task_data` (`app/utils.py`).  The `title` and
`due_date` fields are modelled as optional strings (`data.get(...)` yields
`None` when absent; the empty string is falsy like `None`), `is_recurring`
as an optional JSON value.  Returns `(is_valid, error_message)`. -/
def validate_task_data (title? due_date? : Option String) (is_recurring? : Option JVal) :
    Bool × Option String :=
  match title? with
  | none => (false, some "Title is required and cannot be empty")
  | some title =>
    if title = "" then (false, some "Title is required and cannot be empty")
    else
      match due_date? with
      | none => (false, some "due_date is required")
      | some due_date =>
        if due_date = "" then (false, some "due_date is required")
        else
          let t := pyStrip title
          if t.data.length < 1 then (false, some "Title cannot be empty")
          else if t.data.length > 500 then (false, some "Title cannot exceed 500 characters")
          else if (parse_due_date due_date).isNone then
            (false, some "due_date must be in YYYY-MM-DD format")
          else
            match is_recurring? with
            | some (.bool _) | none => (true, none)
            | some _ => (false, some "is_recurring must be a boolean")

/-- Response of the JSON creation endpoint, `POST /api/tasks`. -/
inductive ApiResp where
  | validationError (message : String)
  | createdResp (t : Task)
  | conflictResp (t : Task)
deriving DecidableEq

/-- Model of `create_task` (`app/routes_api.py`, `POST /api/tasks`): validate
the payload, parse the due date, strip the title and delegate to
`create_task_if_not_exists`.  `is_recurring` defaults to `False` and
`display_order` to `0` when absent. -/
def create_task (s : Store) (title? due_date? : Option String)
    (is_recurring? : Option JVal) (display_order? : Option Int) (now : Int) :
    ApiResp × Store :=
  match validate_task_data title? due_date? is_recurring? with
  | (false, some message) => (.validationError message, s)
  | (false, none) => (.validationError "", s)
  | (true, _) =>
    match title?, due_date? with
    | some title, some due_date_str =>
      match parse_due_date due_date_str with
      | none => (.validationError "due_date must be in YYYY-MM-DD format", s)
      | some due_date =>
        let task_title := pyStrip title
        let is_recurring := match is_recurring? with
          | some (.bool b) => b
          | _ => false
        let display_order := display_order?.getD 0
        let (task, status_code, s') :=
          create_task_if_not_exists s task_title due_date is_recurring display_order now
        match status_code with
        | .created => (.createdResp task, s')
        | .alreadyExists => (.conflictResp task, s')
    | _, _ => (.validationError "", s)

/-- The ordering of `GET /api/tasks` (`query.order_by(...)` in
`app/routes_api.py`): open tasks first, then ascending `display_order`, then
ascending `due_date`, then descending `created_at`. -/
def taskQueryRel (a b : Task) : Prop :=
  (a.is_done = false ∧ b.is_done = true)
  ∨ (a.is_done = b.is_done ∧
      (a.display_order < b.display_order
        ∨ (a.display_order = b.display_order ∧
            (a.due_date < b.due_date
              ∨ (a.due_date = b.due_date ∧ b.created_at ≤ a.created_at)))))

instance : DecidableRel taskQueryRel := fun a b => by
  unfold taskQueryRel
  infer_instance

/-- Pagination metadata of `GET /api/tasks`. -/
structure PageMeta where
  total : Nat
  page_limit : Int
  page_offset : Int
  has_more : Bool
deriving DecidableEq

/-- The row filter of `GET /api/tasks`: optional inclusive due-date lower and
upper bounds and an optional completion-state equality filter. -/
def matchesQuery (from? to? : Option Int) (is_done? : Option Bool) (t : Task) : Bool :=
  (match from? with | some f => decide (f ≤ t.due_date) | none => true)
  && (match to? with | some u => decide (t.due_date ≤ u) | none => true)
  && (match is_done? with | some b => t.is_done == b | none => true)

/-- Model of `get_tasks` (`app/routes_api.py`, `GET /api/tasks`).  The date
and `is_done` query strings are modelled as already-parsed options; `limit`
and `offset` are the integers produced by `request.args.get(..., type=int)`
(defaults 100 and 0).  Returns either a 400 error message or the page
together with the pagination metadata. -/
def get_tasks (s : Store) (from? to? : Option Int) (is_done? : Option Bool)
    (limit offset : Int) : Except String (List Task × PageMeta) :=
  if limit < 1 ∨ limit > 1000 then
    .error "limit must be between 1 and 1000"
  else if offset < 0 then
    .error "offset must be 0 or greater"
  else
    let filtered := s.tasks.filter (matchesQuery from? to? is_done?)
    let sorted := filtered.insertionSort taskQueryRel
    let total_count := sorted.length
    let tasks := (sorted.drop offset.toNat).take limit.toNat
    .ok (tasks, ⟨total_count, limit, offset, decide (offset + limit < (total_count : Int))⟩)

/-! ### Web routes (`app/routes_main.py`) -/

/-- Flash messages produced by the web routes, as structured values (the
source interpolates the task data into French/English message strings). -/
inductive FlashMsg where
  | titleRequired
  | dueDateRequired
  | invalidDateFormat
  | titleCannotBeEmpty
  | taskCreatedMsg (title : String)
  | taskAlreadyExistsMsg (title : String) (due_date : Int)
  | taskStatusChanged (title : String) (nowDone : Bool)
  | taskRenamed (oldTitle newTitle : String)
  | taskDeleted (title : String)
  | errorUpdatingNotFound
  | errorDeletingNotFound
deriving DecidableEq

/-- Response of a web route: a redirect to the index carrying flashed
`(category, message)` pairs, a rendered `task_item.html` fragment (HTMX), or
an HTTP 404 page — the response `abort(404)` would produce if it were not
caught by the surrounding `except Exception` handler. -/
inductive WebResponse where
  | redirect (flashes : List (String × FlashMsg))
  | htmlItem (t : Task)
  | notFoundPage
deriving DecidableEq

/-- Model of `toggle_task` (`POST /tasks/<id>/toggle`).  When the id is
unknown, `abort(404)` raises `werkzeug.exceptions.NotFound`, which the
route's own `except Exception` catches, turning it into a flash of category
"error" (message `f` string containing `str(e)`, i.e. the text of the 404)
plus a redirect — not into a 404 response. -/
def toggle_task (s : Store) (task_id : Nat) (now : Int) (is_htmx : Bool) :
    WebResponse × Store :=
  match s.tasks.find? (fun t => t.id == task_id) with
  | none => (.redirect [("error", .errorUpdatingNotFound)], s)
  | some task =>
    let newDone := !task.is_done
    let task' := { task with
      is_done := newDone
      done_at := if newDone then some now else none }
    let s' : Store := ⟨s.tasks.map (fun t => if t.id == task_id then task' else t), s.next_id⟩
    if is_htmx then (.htmlItem task', s')
    else (.redirect [("success", .taskStatusChanged task'.title newDone)], s')

/-- Model of `edit_task` (`POST /tasks/<id>/edit`).  The unknown-id case is
caught exactly as in `toggle_task`.  The new title is stripped; an empty
result is rejected with an "error" flash; otherwise the title is committed
unchanged (no length limit and no duplicate re-check). -/
def edit_task (s : Store) (task_id : Nat) (titleForm : String) :
    WebResponse × Store :=
  match s.tasks.find? (fun t => t.id == task_id) with
  | none => (.redirect [("error", .errorUpdatingNotFound)], s)
  | some task =>
    let new_title := pyStrip titleForm
    if new_title = "" then (.redirect [("error", .titleCannotBeEmpty)], s)
    else
      let s' : Store :=
        ⟨s.tasks.map (fun t => if t.id == task_id then { t with title := new_title } else t),
          s.next_id⟩
      (.redirect [("success", .taskRenamed task.title new_title)], s')

/-- Model of `delete_task` (`POST /tasks/<id>/delete`).  The unknown-id case
is caught exactly as in `toggle_task`. -/
def delete_task (s : Store) (task_id : Nat) : WebResponse × Store :=
  match s.tasks.find? (fun t => t.id == task_id) with
  | none => (.redirect [("error", .errorDeletingNotFound)], s)
  | some task =>
    (.redirect [("success", .taskDeleted task.title)],
      ⟨s.tasks.filter (fun t => !(t.id == task_id)), s.next_id⟩)

/-- Model of `create_task_web` (`POST /tasks`, web form).  The title is
stripped and only checked for emptiness (there is no 500-character limit on
this path); the due date must parse; `is_recurring` is a checkbox presence
flag and `display_order` is not accepted (the store default 0 applies). -/
def create_task_web (s : Store) (titleForm due_date_str : String)
    (is_recurring : Bool) (now : Int) : WebResponse × Store :=
  let title := pyStrip titleForm
  if title = "" then (.redirect [("error", .titleRequired)], s)
  else if due_date_str = "" then (.redirect [("error", .dueDateRequired)], s)
  else
    match parse_due_date due_date_str with
    | none => (.redirect [("error", .invalidDateFormat)], s)
    | some due_date =>
      let (task, status_code, s') := create_task_if_not_exists s title due_date is_recurring 0 now
      match status_code with
      | .created => (.redirect [("success", .taskCreatedMsg task.title)], s')
      | .alreadyExists =>
        (.redirect [("warning", .taskAlreadyExistsMsg task.title due_date)], s')

/-! ### Grouping (`render_all_tasks` and `render_completed_tasks`,
`app/routes_main.py`).  Both views build a Python dict keyed by a date,
appending each task to its group in traversal order; dicts preserve key
insertion order, modelled here by an association list with `insertGrouped`. -/

/-- Append `x` to the group of key `k`, or add a new group at the end — the
behaviour of `d.setdefault`-style insertion into a Python dict. -/
def insertGrouped {κ α : Type} [DecidableEq κ] :
    List (κ × List α) → κ → α → List (κ × List α)
  | [], k, x => [(k, [x])]
  | (k', g) :: rest, k, x =>
    if k' = k then (k', g ++ [x]) :: rest else (k', g) :: insertGrouped rest k x

/-- Group a list by a key, preserving both key-first-occurrence order and the
traversal order inside each group. -/
def groupByKey {κ α : Type} [DecidableEq κ] (key : α → κ) (l : List α) :
    List (κ × List α) :=
  l.foldl (fun gs x => insertGrouped gs (key x) x) []

/-- The ordering of the completed view query (`Task.done_at.desc(),
Task.display_order.asc()`). -/
def completedRel (a b : Task) : Prop :=
  b.done_at.getD 0 < a.done_at.getD 0
  ∨ (a.done_at.getD 0 = b.done_at.getD 0 ∧ a.display_order ≤ b.display_order)

instance : DecidableRel completedRel := fun a b => by
  unfold completedRel
  infer_instance

instance : IsTotal Task completedRel :=
  ⟨by intro a b; unfold completedRel; omega⟩

instance : IsTrans Task completedRel :=
  ⟨by intro a b c; unfold completedRel; omega⟩

/-- Comparison of keyed groups by descending key: the model of Python
`sorted(d.items(), key=..., reverse=True)`. -/
def keyGe {α : Type} (p q : Int × α) : Prop := q.1 ≤ p.1

instance {α : Type} : DecidableRel (@keyGe α) := fun p q => by
  unfold keyGe
  infer_instance

instance {α : Type} : IsTotal (Int × α) keyGe :=
  ⟨by intro p q; unfold keyGe; omega⟩

instance {α : Type} : IsTrans (Int × α) keyGe :=
  ⟨by intro p q r; unfold keyGe; omega⟩

/-- Conversion of a stored UTC timestamp (minutes) to a local calendar date:
`done_at.replace(tzinfo=timezone.utc).astimezone().date()`, for a local zone
at a fixed offset of `tzOffset` minutes. -/
def localDate (tzOffset ts : Int) : Int := (ts + tzOffset) / 1440

/-- The grouping key of the completed view: the local calendar date of
`done_at`. -/
def completedKey (tzOffset : Int) (t : Task) : Int :=
  localDate tzOffset (t.done_at.getD 0)

/-- Model of the grouping core of `render_completed_tasks`
(`app/routes_main.py`): filter to completed tasks with a non-null `done_at`,
order by `done_at` descending then `display_order` ascending, group by the
local calendar date of `done_at`, and sort the groups by date descending. -/
def render_completed_tasks (tzOffset : Int) (s : Store) : List (Int × List Task) :=
  let completed_tasks :=
    (s.tasks.filter (fun t => t.is_done && t.done_at.isSome)).insertionSort completedRel
  let completed_by_date := groupByKey (completedKey tzOffset) completed_tasks
  completed_by_date.insertionSort keyGe

/-- The ordering of the all-tasks view query (`Task.due_date.desc(),
Task.is_done.asc(), Task.display_order.asc(), Task.created_at.desc()`). -/
def allTasksRel (a b : Task) : Prop :=
  b.due_date < a.due_date
  ∨ (a.due_date = b.due_date ∧
      ((a.is_done = false ∧ b.is_done = true)
        ∨ (a.is_done = b.is_done ∧
            (a.display_order < b.display_order
              ∨ (a.display_order = b.display_order ∧ b.created_at ≤ a.created_at)))))

instance : DecidableRel allTasksRel := fun a b => by
  unfold allTasksRel
  infer_instance

/-- The week key computed by `render_all_tasks`:
`days_since_friday = (weekday - 4) % 7`, **plus 7** when the weekday is
Monday–Thursday, subtracted from the task date.  (Python `%` on negatives
equals Lean `Int.emod`.) -/
def fridayOfWeek (task_date : Int) : Int :=
  let weekday := task_date % 7
  let days_since_friday := (weekday - 4) % 7
  let days_since_friday :=
    if weekday < 4 then days_since_friday + 7 else days_since_friday
  task_date - days_since_friday

/-- The grouping key of the all-tasks view: `fridayOfWeek` of the due date. -/
def allTasksKey (t : Task) : Int := fridayOfWeek t.due_date

/-- One week bucket of the all-tasks view. -/
structure WeekBucket where
  friday_date : Int
  saturday_date : Int
  sunday_date : Int
  friday_tasks : List Task
  saturday_tasks : List Task
  sunday_tasks : List Task
deriving DecidableEq

/-- Turn one week group into its bucket of three day sub-lists: a task is
placed in the sub-list whose exact date it matches; a task matching none of
the bucket's Friday/Saturday/Sunday lands in **no** sub-list, exactly as in
the source loop. -/
def mkWeekBucket (p : Int × List Task) : Int × WeekBucket :=
  (p.1,
    { friday_date := p.1
      saturday_date := p.1 + 1
      sunday_date := p.1 + 2
      friday_tasks := p.2.filter (fun t => t.due_date == p.1)
      saturday_tasks := p.2.filter (fun t => t.due_date == p.1 + 1)
      sunday_tasks := p.2.filter (fun t => t.due_date == p.1 + 2) })

/-- Model of the grouping core of `render_all_tasks` (`app/routes_main.py`):
order all tasks by the query ordering, group them by `fridayOfWeek` of the
due date, fill the three day sub-lists of each bucket, and sort the buckets
by their Friday descending. -/
def render_all_tasks (s : Store) : List (Int × WeekBucket) :=
  let tasks := s.tasks.insertionSort allTasksRel
  let weeks := groupByKey allTasksKey tasks
  let buckets := weeks.map mkWeekBucket
  buckets.insertionSort keyGe

/-! ### Correctness lemmas about `groupByKey` -/

theorem map_update_of_not_mem {κ α : Type} [DecidableEq κ] (gs : List (κ × List α))
    (k : κ) (x : α) (h : k ∉ gs.map Prod.fst) :
    gs.map (fun p => if p.1 = k then (p.1, p.2 ++ [x]) else p) = gs := by
  induction gs with
  | nil => rfl
  | cons p rest ih =>
    simp only [List.map_cons, List.mem_cons] at h ⊢
    push_neg at h
    rw [if_neg (Ne.symm h.1), ih h.2]

theorem insertGrouped_of_not_mem {κ α : Type} [DecidableEq κ] (gs : List (κ × List α))
    (k : κ) (x : α) (h : k ∉ gs.map Prod.fst) :
    insertGrouped gs k x = gs ++ [(k, [x])] := by
  induction gs with
  | nil => rfl
  | cons p rest ih =>
    obtain ⟨k', g⟩ := p
    simp only [List.map_cons, List.mem_cons] at h
    push_neg at h
    simp only [insertGrouped, if_neg (Ne.symm h.1), List.cons_append, ih h.2]

theorem insertGrouped_of_mem {κ α : Type} [DecidableEq κ] (gs : List (κ × List α))
    (k : κ) (x : α) :
    (gs.map Prod.fst).Nodup → k ∈ gs.map Prod.fst →
      insertGrouped gs k x = gs.map (fun p => if p.1 = k then (p.1, p.2 ++ [x]) else p) := by
  induction gs with
  | nil =>
    intro _ h
    simp at h
  | cons p rest ih =>
    intro hnd h
    obtain ⟨k', g⟩ := p
    simp only [List.map_cons, List.nodup_cons] at hnd ⊢
    simp only [List.map_cons, List.mem_cons] at h
    by_cases hk : k' = k
    · subst hk
      rw [show insertGrouped ((k', g) :: rest) k' x = (k', g ++ [x]) :: rest from by
        simp [insertGrouped]]
      rw [if_pos rfl, map_update_of_not_mem rest k' x hnd.1]
    · rcases h with h | h
      · exact absurd h.symm hk
      · rw [show insertGrouped ((k', g) :: rest) k x = (k', g) :: insertGrouped rest k x from by
          simp [insertGrouped, hk]]
        rw [if_neg hk, ih hnd.2 h]

/-- The invariant maintained while folding `insertGrouped` over a task list:
group keys are distinct, every processed element has a group, and each group
holds exactly the processed elements with that key, in traversal order. -/
def GroupInv {κ α : Type} [DecidableEq κ] (key : α → κ) (processed : List α)
    (gs : List (κ × List α)) : Prop :=
  (gs.map Prod.fst).Nodup
  ∧ (∀ x ∈ processed, key x ∈ gs.map Prod.fst)
  ∧ (∀ p ∈ gs, p.2 = processed.filter (fun x => decide (key x = p.1)))

theorem GroupInv.step {κ α : Type} [DecidableEq κ] {key : α → κ} {pr : List α}
    {gs : List (κ × List α)} (h : GroupInv key pr gs) (x : α) :
    GroupInv key (pr ++ [x]) (insertGrouped gs (key x) x) := by
  obtain ⟨hnd, hcomp, hgr⟩ := h
  by_cases hk : key x ∈ gs.map Prod.fst
  · rw [insertGrouped_of_mem gs (key x) x hnd hk]
    have hkeys : (gs.map (fun p => if p.1 = key x then (p.1, p.2 ++ [x]) else p)).map Prod.fst
        = gs.map Prod.fst := by
      rw [List.map_map]
      apply List.map_congr_left
      intro p _
      by_cases h1 : p.1 = key x <;> simp [h1]
    refine ⟨by rw [hkeys]; exact hnd, ?_, ?_⟩
    · intro y hy
      rw [hkeys]
      rcases List.mem_append.mp hy with hy | hy
      · exact hcomp y hy
      · simp only [List.mem_singleton] at hy
        subst hy
        exact hk
    · intro q hq
      obtain ⟨p, hp, hpq⟩ := List.mem_map.mp hq
      by_cases h1 : p.1 = key x
      · rw [if_pos h1] at hpq
        subst hpq
        simp only [List.filter_append]
        rw [← hgr p hp]
        have : List.filter (fun y => decide (key y = p.1)) [x] = [x] := by
          simp [h1]
        simp only [this]
      · rw [if_neg h1] at hpq
        subst hpq
        simp only [List.filter_append]
        rw [← hgr p hp]
        have hxp : ¬(key x = p.1) := fun he => h1 he.symm
        have : List.filter (fun y => decide (key y = p.1)) [x] = [] := by
          simp [hxp]
        simp [this]
  · rw [insertGrouped_of_not_mem gs (key x) x hk]
    have hne : ∀ y ∈ pr, key y ≠ key x := by
      intro y hy he
      exact hk (he ▸ hcomp y hy)
    refine ⟨?_, ?_, ?_⟩
    · simp only [List.map_append, List.map_cons, List.map_nil]
      rw [List.nodup_append]
      refine ⟨hnd, List.nodup_singleton _, ?_⟩
      intro a ha
      simp only [List.mem_singleton]
      intro he
      exact hk (he ▸ ha)
    · intro y hy
      simp only [List.map_append, List.map_cons, List.map_nil]
      rcases List.mem_append.mp hy with hy | hy
      · exact List.mem_append_left _ (hcomp y hy)
      · simp only [List.mem_singleton] at hy
        subst hy
        exact List.mem_append_right _ (List.mem_singleton_self _)
    · intro p hp
      rcases List.mem_append.mp hp with hp | hp
      · have hne2 : ¬(key x = p.1) := by
          intro he
          exact hk (he ▸ List.mem_map_of_mem Prod.fst hp)
        simp only [List.filter_append]
        rw [← hgr p hp]
        have : List.filter (fun y => decide (key y = p.1)) [x] = [] := by
          simp [hne2]
        simp [this]
      · simp only [List.mem_singleton] at hp
        subst hp
        simp only [List.filter_append]
        have h1 : List.filter (fun y => decide (key y = (key x, [x]).1)) pr = [] := by
          rw [List.filter_eq_nil_iff]
          intro y hy
          simpa using hne y hy
        have h2 : List.filter (fun y => decide (key y = (key x, [x]).1)) [x] = [x] := by
          simp
        rw [h1, h2]
        rfl

theorem GroupInv.fold {κ α : Type} [DecidableEq κ] (key : α → κ) :
    ∀ (l pr : List α) (gs : List (κ × List α)), GroupInv key pr gs →
      GroupInv key (pr ++ l) (l.foldl (fun gs x => insertGrouped gs (key x) x) gs)
  | [], pr, gs, h => by simpa using h
  | x :: l, pr, gs, h => by
    have := GroupInv.fold key l (pr ++ [x]) (insertGrouped gs (key x) x) (h.step x)
    simpa [List.append_assoc] using this

theorem groupByKey_inv {κ α : Type} [DecidableEq κ] (key : α → κ) (l : List α) :
    GroupInv key l (groupByKey key l) := by
  have h0 : GroupInv key ([] : List α) ([] : List (κ × List α)) := by
    refine ⟨by simp, by simp, by simp⟩
  have := GroupInv.fold key l [] [] h0
  simpa [groupByKey] using this

/-! ### Concrete fixtures used by witnesses and counterexamples -/

/-- The empty store, with the autoincrement counter at 1 (SQLite style). -/
def store0 : Store := ⟨[], 1⟩

/-! ### Claim C3 -/

/-- C3: for every reference date, if its weekday is Friday, Saturday or
Sunday, `get_target_weekend` returns a Friday with
Friday ≤ reference_date ≤ Friday + 2; if the weekday is Monday–Thursday the
returned Friday is strictly after the reference date and at most 4 days
after it; and in all cases Saturday = Friday + 1 and Sunday = Friday + 2. -/
theorem C3_target_weekend (reference_date : Int) :
    (reference_date % 7 = 4 ∨ reference_date % 7 = 5 ∨ reference_date % 7 = 6 →
      (get_target_weekend reference_date).1 % 7 = 4 ∧
      (get_target_weekend reference_date).1 ≤ reference_date ∧
      reference_date ≤ (get_target_weekend reference_date).1 + 2) ∧
    (reference_date % 7 = 0 ∨ reference_date % 7 = 1 ∨
        reference_date % 7 = 2 ∨ reference_date % 7 = 3 →
      (get_target_weekend reference_date).1 % 7 = 4 ∧
      reference_date < (get_target_weekend reference_date).1 ∧
      (get_target_weekend reference_date).1 ≤ reference_date + 4) ∧
    (get_target_weekend reference_date).2.1 = (get_target_weekend reference_date).1 + 1 ∧
    (get_target_weekend reference_date).2.2 = (get_target_weekend reference_date).1 + 2 := by
  have h0 : 0 ≤ reference_date % 7 := Int.emod_nonneg _ (by norm_num)
  have h1 : reference_date % 7 < 7 := Int.emod_lt_of_pos _ (by norm_num)
  rcases hgw : get_target_weekend reference_date with ⟨f, sa, su⟩
  simp only [get_target_weekend, Prod.mk.injEq] at hgw
  obtain ⟨hf, hsa, hsu⟩ := hgw
  dsimp only
  split_ifs at hf with h
  · have h4 : 4 ≤ reference_date % 7 := by rcases h with h | h | h <;> omega
    exact ⟨fun _ => ⟨by omega, by omega, by omega⟩,
      fun hw => by rcases hw with hw | hw | hw | hw <;> omega,
      by omega, by omega⟩
  · have h4 : reference_date % 7 < 4 := by
      push_neg at h
      omega
    exact ⟨fun hw => by rcases hw with hw | hw | hw <;> omega,
      fun _ => ⟨by omega, by omega, by omega⟩,
      by omega, by omega⟩

/-- Witness for C3 at the spec scenario date, Wednesday 2024-06-12
(day index 739048): the returned Friday is 2024-06-14 (day index 739050). -/
theorem C3_target_weekend_witness :
    ((739048 : Int) % 7 = 0 ∨ (739048 : Int) % 7 = 1 ∨
      (739048 : Int) % 7 = 2 ∨ (739048 : Int) % 7 = 3) ∧
    ((get_target_weekend 739048).1 % 7 = 4 ∧
      (739048 : Int) < (get_target_weekend 739048).1 ∧
      (get_target_weekend 739048).1 ≤ 739048 + 4) :=
  ⟨by decide, (C3_target_weekend 739048).2.1 (by decide)⟩

/-! ### Claim C2 -/

/-- C2: starting from a store with no open task for the pair, calling
`create_task_if_not_exists` twice in sequence with the identical
`(title, due_date)` pair (the task created by the first call is untouched in
between, hence still open) yields `Created` then `AlreadyExists`, and both
calls return a task with the same id. -/
theorem C2_create_twice_idempotent (s : Store) (title : String) (due_date : Int)
    (r1 r2 : Bool) (o1 o2 now1 now2 : Int)
    (h : s.tasks.find? (openMatch title due_date) = none) :
    (create_task_if_not_exists s title due_date r1 o1 now1).2.1 = CreateStatus.created ∧
    (create_task_if_not_exists
        (create_task_if_not_exists s title due_date r1 o1 now1).2.2
        title due_date r2 o2 now2).2.1 = CreateStatus.alreadyExists ∧
    (create_task_if_not_exists
        (create_task_if_not_exists s title due_date r1 o1 now1).2.2
        title due_date r2 o2 now2).1.id
      = (create_task_if_not_exists s title due_date r1 o1 now1).1.id := by
  have hmatch : openMatch title due_date
      { id := s.next_id, title := title, due_date := due_date, is_done := false,
        done_at := none, created_at := now1, is_recurring := r1,
        display_order := o1 } = true := by
    simp [openMatch]
  simp only [create_task_if_not_exists, h]
  rw [List.find?_append, h]
  simp [hmatch]

/-- Witness for C2: the spec scenario — create "Clean lobby" due 2024-06-14
(day index 739050) twice on the empty store. -/
theorem C2_create_twice_idempotent_witness :
    store0.tasks.find? (openMatch "Clean lobby" 739050) = none ∧
    ((create_task_if_not_exists store0 "Clean lobby" 739050 false 0 0).2.1
        = CreateStatus.created ∧
      (create_task_if_not_exists
          (create_task_if_not_exists store0 "Clean lobby" 739050 false 0 0).2.2
          "Clean lobby" 739050 false 0 0).2.1 = CreateStatus.alreadyExists ∧
      (create_task_if_not_exists
          (create_task_if_not_exists store0 "Clean lobby" 739050 false 0 0).2.2
          "Clean lobby" 739050 false 0 0).1.id
        = (create_task_if_not_exists store0 "Clean lobby" 739050 false 0 0).1.id) :=
  ⟨by decide, C2_create_twice_idempotent store0 "Clean lobby" 739050
    false false 0 0 0 0 (by decide)⟩

/-! ### Claim C9 -/

/-- C9: when an open task with the requested `(title, due_date)` pair exists,
`create_task_if_not_exists` returns exactly that stored task — all of its
fields, including `is_recurring` and `display_order`, keep their old values
regardless of the arguments supplied — tagged `AlreadyExists`, and the store
is left completely unchanged. -/
theorem C9_already_exists_frame (s : Store) (title : String) (due_date : Int)
    (t : Task) (is_recurring : Bool) (display_order now : Int)
    (h : s.tasks.find? (openMatch title due_date) = some t) :
    create_task_if_not_exists s title due_date is_recurring display_order now
      = (t, CreateStatus.alreadyExists, s) := by
  simp [create_task_if_not_exists, h]

/-- A stored open task used by the C9 witness: recurring, display order 5. -/
def tC9 : Task :=
  { id := 1, title := "Faire les inox", due_date := 739050, is_done := false,
    done_at := none, created_at := 0, is_recurring := true, display_order := 5 }

/-- Witness for C9: re-creating the task with `is_recurring = false` and
`display_order = 9` returns the stored row (recurring, order 5) untouched
and does not modify the store. -/
theorem C9_already_exists_frame_witness :
    (⟨[tC9], 2⟩ : Store).tasks.find? (openMatch "Faire les inox" 739050) = some tC9 ∧
    create_task_if_not_exists ⟨[tC9], 2⟩ "Faire les inox" 739050 false 9 77
      = (tC9, CreateStatus.alreadyExists, ⟨[tC9], 2⟩) :=
  ⟨by decide,
    C9_already_exists_frame ⟨[tC9], 2⟩ "Faire les inox" 739050 tC9 false 9 77 (by decide)⟩

/-! ### Claim C1 -/

/-- C1 (amended): `create_task_if_not_exists` and `delete_task` preserve the
open-duplicate invariant — creation because of its application-side
pre-check, not because of any storage-level constraint (the table declares
none on `(title, due_date)`).  The original claim fails: `toggle_done` can
reopen a completed duplicate, reaching a state that violates the invariant
(see the counterexample), and with no uniqueness constraint the insert does
not enforce the invariant atomically. -/
theorem C1_create_delete_preserve_invariant (s : Store) (title : String)
    (due_date : Int) (is_recurring : Bool) (display_order now : Int) (task_id : Nat)
    (h : openDupFree s) :
    openDupFree (create_task_if_not_exists s title due_date is_recurring display_order now).2.2
    ∧ openDupFree (delete_task s task_id).2 := by
  constructor
  · unfold create_task_if_not_exists
    cases hf : s.tasks.find? (openMatch title due_date) with
    | some t =>
      simpa using h
    | none =>
      simp only
      unfold openDupFree at h ⊢
      rw [List.pairwise_append]
      refine ⟨h, List.pairwise_singleton _ _, ?_⟩
      intro a ha b hb
      simp only [List.mem_singleton] at hb
      subst hb
      have hnm := List.find?_eq_none.mp hf a ha
      simp only [openMatch, Bool.and_eq_true, beq_iff_eq] at hnm
      intro hcon
      exact hnm ⟨⟨hcon.2.2.1, hcon.2.2.2⟩, hcon.1⟩
  · unfold delete_task
    cases hf : s.tasks.find? (fun t => t.id == task_id) with
    | some t =>
      exact h.sublist (List.filter_sublist s.tasks)
    | none =>
      simpa using h

/-- Witness for C1 (amended): creating on the empty store and then deleting
an id keeps the invariant. -/
theorem C1_create_delete_preserve_invariant_witness :
    openDupFree store0 ∧
    (openDupFree (create_task_if_not_exists store0 "a" 739050 false 0 0).2.2
      ∧ openDupFree (delete_task store0 1).2) :=
  ⟨by decide,
    C1_create_delete_preserve_invariant store0 "a" 739050 false 0 0 1 (by decide)⟩

/-- Counterexample refuting C1 as stated: the state reached by
create "a" → toggle it done → create "a" again (allowed, the first is done)
→ toggle the first back open contains two open tasks with the same
`(title, due_date)` pair, so not every state reachable via
`create_task_if_not_exists`, `toggle_task` and `delete_task` satisfies the
invariant. -/
theorem C1_counterexample :
    ¬ openDupFree
      (toggle_task
        (create_task_if_not_exists
          (toggle_task
            (create_task_if_not_exists store0 "a" 739050 false 0 0).2.2
            1 10 false).2
          "a" 739050 false 0 20).2.2
        1 30 false).2 := by
  decide

/-! ### Claim C6 -/

/-- C6 (code bug witnessed): for a `task_id` absent from the store, each of
toggle, rename and delete leaves the store unchanged, but none of them
surfaces a typed NotFound result: `abort(404)` is caught by the route's own
`except Exception` handler, so the caller receives a redirect carrying a
flash of category "error" — the same channel a validation failure uses (last
clause) — instead of the 404 response `abort` was meant to produce. -/
theorem C6_missing_id_not_found_swallowed :
    toggle_task store0 1 0 false
      = (.redirect [("error", .errorUpdatingNotFound)], store0) ∧
    edit_task store0 1 "New title"
      = (.redirect [("error", .errorUpdatingNotFound)], store0) ∧
    delete_task store0 1
      = (.redirect [("error", .errorDeletingNotFound)], store0) ∧
    (toggle_task store0 1 0 false).1 ≠ WebResponse.notFoundPage ∧
    (edit_task store0 1 "New title").1 ≠ WebResponse.notFoundPage ∧
    (delete_task store0 1).1 ≠ WebResponse.notFoundPage ∧
    (edit_task ⟨[tC9], 2⟩ 1 "   ").1
      = WebResponse.redirect [("error", .titleCannotBeEmpty)] := by
  decide

/-! ### Claim C10 -/

/-- C10: for an existing `task_id`, rename fails with the validation flash if
and only if the new title is empty after trimming; any non-empty trimmed
title — with no length limit — is committed exactly as trimmed, all other
fields and tasks unchanged, and an empty trimmed title leaves the store
unchanged. -/
theorem C10_rename_validation (s : Store) (task_id : Nat) (t : Task) (titleForm : String)
    (h : s.tasks.find? (fun x => x.id == task_id) = some t) :
    ((edit_task s task_id titleForm).1
        = WebResponse.redirect [("error", .titleCannotBeEmpty)]
      ↔ pyStrip titleForm = "") ∧
    (pyStrip titleForm ≠ "" →
      edit_task s task_id titleForm
        = (WebResponse.redirect [("success", .taskRenamed t.title (pyStrip titleForm))],
            ⟨s.tasks.map
              (fun x => if x.id == task_id then { x with title := pyStrip titleForm } else x),
              s.next_id⟩)) ∧
    (pyStrip titleForm = "" → (edit_task s task_id titleForm).2 = s) := by
  unfold edit_task
  rw [h]
  dsimp only
  by_cases he : pyStrip titleForm = ""
  · rw [if_pos he]
    exact ⟨⟨fun _ => he, fun _ => rfl⟩, fun hne => absurd he hne, fun _ => rfl⟩
  · rw [if_neg he]
    refine ⟨⟨fun hc => ?_, fun hc => absurd hc he⟩, fun _ => rfl, fun hc => absurd hc he⟩
    simp at hc

/-- A 501-character title, used to exercise the absence of a length limit. -/
def t501 : String := ⟨List.replicate 501 'a'⟩

set_option maxRecDepth 8000

/-- Witness for C10: renaming the stored task to a 501-character title
succeeds and commits the title unchanged. -/
theorem C10_rename_validation_witness :
    pyStrip t501 ≠ "" ∧ 500 < t501.data.length ∧
    edit_task ⟨[tC9], 2⟩ 1 t501
      = (WebResponse.redirect [("success", FlashMsg.taskRenamed tC9.title (pyStrip t501))],
          ⟨[{ tC9 with title := pyStrip t501 }], 2⟩) :=
  ⟨by decide, by decide, by
    have h := (C10_rename_validation ⟨[tC9], 2⟩ 1 tC9 t501 (by decide)).2.1 (by decide)
    simpa using h⟩

/-! ### Claim C7 -/

/-- C7: with `limit` in [1, 1000] and `offset` ≥ 0, `get_tasks` returns a
page of at most `limit` tasks together with the total matched count, and
`has_more` holds exactly when `offset + limit < total`; with `limit = 0`,
`limit = 1001` or a negative `offset` it is rejected with an error and no
page is returned. -/
theorem C7_pagination (s : Store) (from? to? : Option Int) (is_done? : Option Bool)
    (limit offset : Int) :
    (1 ≤ limit → limit ≤ 1000 → 0 ≤ offset →
      ∃ page meta, get_tasks s from? to? is_done? limit offset = .ok (page, meta) ∧
        (page.length : Int) ≤ limit ∧
        meta.total = (s.tasks.filter (matchesQuery from? to? is_done?)).length ∧
        (meta.has_more = true ↔ offset + limit < (meta.total : Int))) ∧
    ((limit = 0 ∨ limit = 1001 ∨ offset < 0) →
      ∃ msg, get_tasks s from? to? is_done? limit offset = .error msg) := by
  constructor
  · intro h1 h2 h3
    have hc1 : ¬(limit < 1 ∨ limit > 1000) := by omega
    have hc2 : ¬(offset < 0) := by omega
    unfold get_tasks
    rw [if_neg hc1, if_neg hc2]
    refine ⟨_, _, rfl, ?_, ?_, ?_⟩
    · simp only [List.length_take]
      have hlen := ((s.tasks.filter
        (matchesQuery from? to? is_done?)).insertionSort taskQueryRel).length_drop
        offset.toNat
      omega
    · exact (List.perm_insertionSort _ _).length_eq
    · simp

  · intro h
    unfold get_tasks
    by_cases hc : limit < 1 ∨ limit > 1000
    · rw [if_pos hc]
      exact ⟨_, rfl⟩
    · rw [if_neg hc, if_pos (by omega)]
      exact ⟨_, rfl⟩

/-- Witness for C7: the empty store with a valid and an invalid query. -/
theorem C7_pagination_witness :
    (∃ page meta, get_tasks store0 none none none 2 0 = .ok (page, meta) ∧
      (page.length : Int) ≤ 2 ∧
      meta.total = (store0.tasks.filter (matchesQuery none none none)).length ∧
      (meta.has_more = true ↔ (0 : Int) + 2 < (meta.total : Int))) ∧
    (∃ msg, get_tasks store0 none none none 0 0 = .error msg) :=
  ⟨(C7_pagination store0 none none none 2 0).1 (by decide) (by decide) (by decide),
    (C7_pagination store0 none none none 0 0).2 (by decide)⟩

/-! ### Claim C8 -/

/-- The `isinstance(data.get("is_recurring"), bool)` check: the field is
acceptable when absent or boolean-typed. -/
def isBoolOrAbsent : Option JVal → Bool
  | some (.bool _) => true
  | none => true
  | _ => false

theorem validate_true_facts (title due : String) (r? : Option JVal) (m? : Option String)
    (h : validate_task_data (some title) (some due) r? = (true, m?)) :
    1 ≤ (pyStrip title).data.length ∧ (pyStrip title).data.length ≤ 500
    ∧ (parse_due_date due).isSome = true ∧ isBoolOrAbsent r? = true := by
  unfold validate_task_data at h
  dsimp only at h
  by_cases h1 : title = ""
  · rw [if_pos h1] at h
    simp at h
  · rw [if_neg h1] at h
    by_cases h2 : due = ""
    · rw [if_pos h2] at h
      simp at h
    · rw [if_neg h2] at h
      split_ifs at h with hl1 hl2 hp
      · simp at h
      · simp at h
      · simp at h
      · refine ⟨by omega, by omega, ?_, ?_⟩
        · rcases hpd : parse_due_date due with _ | v
          · rw [hpd] at hp
            simp at hp
          · rfl
        rcases r? with _ | v
        · rfl
        · cases v with
          | bool b => rfl
          | str v => simp at h
          | num v => simp at h
          | null => simp at h

theorem create_task_validation_error (s : Store) (title? due_date? : Option String)
    (r? : Option JVal) (o? : Option Int) (now : Int)
    (h : (validate_task_data title? due_date? r?).1 = false) :
    ∃ m, create_task s title? due_date? r? o? now = (.validationError m, s) := by
  unfold create_task
  rcases hv : validate_task_data title? due_date? r? with ⟨b, m?⟩
  rw [hv] at h
  simp only at h
  subst h
  cases m? with
  | none => exact ⟨"", rfl⟩
  | some m => exact ⟨m, rfl⟩

/-- C8 (amended): the JSON API creation path enforces the full validation
contract — an empty-after-trim title, a trimmed title longer than 500
characters, an unparseable `due_date` and a non-boolean `is_recurring` are
each rejected as a validation failure before any task is created.  The web
form path rejects only an empty-after-trim title and an unparseable due
date; once both hold it proceeds straight to creation, with no
500-character limit (and its `is_recurring` is a presence flag that cannot
carry a non-boolean value). -/
theorem C8_creation_validation (s : Store) (title due : String) (r? : Option JVal)
    (o? : Option Int) (now : Int) (rawT rawD : String) (recFlag : Bool) :
    (pyStrip title = "" →
      ∃ m, create_task s (some title) (some due) r? o? now = (.validationError m, s)) ∧
    (500 < (pyStrip title).data.length →
      ∃ m, create_task s (some title) (some due) r? o? now = (.validationError m, s)) ∧
    (parse_due_date due = none →
      ∃ m, create_task s (some title) (some due) r? o? now = (.validationError m, s)) ∧
    (isBoolOrAbsent r? = false →
      ∃ m, create_task s (some title) (some due) r? o? now = (.validationError m, s)) ∧
    (pyStrip rawT = "" →
      ∃ f, create_task_web s rawT rawD recFlag now = (.redirect [("error", f)], s)) ∧
    (parse_due_date rawD = none →
      ∃ f, create_task_web s rawT rawD recFlag now = (.redirect [("error", f)], s)) ∧
    (pyStrip rawT ≠ "" → ∀ dd, parse_due_date rawD = some dd →
      (create_task_web s rawT rawD recFlag now).2
        = (create_task_if_not_exists s (pyStrip rawT) dd recFlag 0 now).2.2) := by
  have hv : ∀ m?, validate_task_data (some title) (some due) r? = (true, m?) →
      1 ≤ (pyStrip title).data.length ∧ (pyStrip title).data.length ≤ 500
      ∧ (parse_due_date due).isSome = true ∧ isBoolOrAbsent r? = true :=
    fun m? h => validate_true_facts title due r? m? h
  refine ⟨?_, ?_, ?_, ?_, ?_, ?_, ?_⟩
  · intro he
    rcases hval : validate_task_data (some title) (some due) r? with ⟨b, m?⟩
    cases b with
    | false => exact create_task_validation_error s _ _ r? o? now (by rw [hval])
    | true =>
      have hfacts := hv m? hval
      rw [he] at hfacts
      simp at hfacts
  · intro he
    rcases hval : validate_task_data (some title) (some due) r? with ⟨b, m?⟩
    cases b with
    | false => exact create_task_validation_error s _ _ r? o? now (by rw [hval])
    | true =>
      have hfacts := hv m? hval
      omega
  · intro he
    rcases hval : validate_task_data (some title) (some due) r? with ⟨b, m?⟩
    cases b with
    | false => exact create_task_validation_error s _ _ r? o? now (by rw [hval])
    | true =>
      have hfacts := hv m? hval
      rw [he] at hfacts
      simp at hfacts
  · intro he
    rcases hval : validate_task_data (some title) (some due) r? with ⟨b, m?⟩
    cases b with
    | false => exact create_task_validation_error s _ _ r? o? now (by rw [hval])
    | true =>
      have hfacts := hv m? hval
      rw [he] at hfacts
      simp at hfacts
  · intro he
    unfold create_task_web
    rw [if_pos he]
    exact ⟨_, rfl⟩
  · intro he
    unfold create_task_web
    by_cases h1 : pyStrip rawT = ""
    · rw [if_pos h1]
      exact ⟨_, rfl⟩
    · rw [if_neg h1]
      by_cases h2 : rawD = ""
      · rw [if_pos h2]
        exact ⟨_, rfl⟩
      · rw [if_neg h2, he]
        exact ⟨_, rfl⟩
  · intro h1 dd hdd
    have h2 : rawD ≠ "" := by
      intro he
      rw [he] at hdd
      simp [parse_due_date, pyStrip, splitDash] at hdd
    unfold create_task_web
    rw [if_neg h1, if_neg h2, hdd]
    rcases hc : create_task_if_not_exists s (pyStrip rawT) dd recFlag 0 now with ⟨t, st, s'⟩
    cases st with
    | created => simp [hc]
    | alreadyExists => simp [hc]

/-- Counterexample refuting C8 as stated: the web form path accepts a
501-character title — the task is created and a success flash is returned,
so the 500-character rule is not enforced on every creation path. -/
theorem C8_counterexample :
    500 < (pyStrip t501).data.length ∧
    (create_task_web store0 t501 "2024-06-14" false 0).1
      = WebResponse.redirect [("success", FlashMsg.taskCreatedMsg t501)] ∧
    (create_task_web store0 t501 "2024-06-14" false 0).2.tasks.map Task.title = [t501] := by
  decide

/-- Witness for C8 (amended): each rejection clause exercised at a concrete
input — whitespace title, 501-character title, month 13, and a string-typed
`is_recurring` on the API path; whitespace title and month 13 on the web
path. -/
theorem C8_creation_validation_witness :
    (∃ m, create_task store0 (some "   ") (some "2024-06-14") none none 0
        = (.validationError m, store0)) ∧
    (∃ m, create_task store0 (some t501) (some "2024-06-14") none none 0
        = (.validationError m, store0)) ∧
    (∃ m, create_task store0 (some "Nettoyer") (some "2024-13-40") none none 0
        = (.validationError m, store0)) ∧
    (∃ m, create_task store0 (some "Nettoyer") (some "2024-06-14")
        (some (JVal.str "yes")) none 0 = (.validationError m, store0)) ∧
    (∃ f, create_task_web store0 "  " "2024-06-14" false 0
        = (.redirect [("error", f)], store0)) ∧
    (∃ f, create_task_web store0 "Nettoyer" "2024-13-40" false 0
        = (.redirect [("error", f)], store0)) :=
  ⟨(C8_creation_validation store0 "   " "2024-06-14" none none 0 "x" "x" false).1
      (by decide),
    (C8_creation_validation store0 t501 "2024-06-14" none none 0 "x" "x" false).2.1
      (by decide),
    (C8_creation_validation store0 "Nettoyer" "2024-13-40" none none 0 "x" "x" false).2.2.1
      (by decide),
    (C8_creation_validation store0 "Nettoyer" "2024-06-14" (some (JVal.str "yes")) none 0
        "x" "x" false).2.2.2.1 (by decide),
    (C8_creation_validation store0 "x" "x" none none 0 "  " "2024-06-14" false).2.2.2.2.1
      (by decide),
    (C8_creation_validation store0 "x" "x" none none 0 "Nettoyer" "2024-13-40" false).2.2.2.2.2.1
      (by decide)⟩

/-! ### Claim C5 -/

/-- C5 (amended): the completed view shows exactly the tasks with
`is_done = true` and a non-null `done_at`; it groups them by the local
calendar date of `done_at`; groups are sorted strictly descending by that
date; and within each group tasks are ordered by **descending `done_at`
timestamp**, with ascending `display_order` breaking ties only among equal
timestamps (`completedRel`) — not by ascending `display_order` alone. -/
theorem C5_completed_view (tzOffset : Int) (s : Store) :
    (∀ t, (∃ p ∈ render_completed_tasks tzOffset s, t ∈ p.2)
        ↔ (t ∈ s.tasks ∧ t.is_done = true ∧ t.done_at.isSome = true)) ∧
    (∀ p ∈ render_completed_tasks tzOffset s, ∀ t ∈ p.2, completedKey tzOffset t = p.1) ∧
    ((render_completed_tasks tzOffset s).map Prod.fst).Pairwise (fun a b => b < a) ∧
    (∀ p ∈ render_completed_tasks tzOffset s, p.2.Pairwise completedRel) := by
  have hdef : render_completed_tasks tzOffset s
      = (groupByKey (completedKey tzOffset)
          ((s.tasks.filter (fun t => t.is_done && t.done_at.isSome)).insertionSort
            completedRel)).insertionSort keyGe := rfl
  obtain ⟨hnd, hcomp, hgr⟩ := groupByKey_inv (completedKey tzOffset)
    ((s.tasks.filter (fun t => t.is_done && t.done_at.isSome)).insertionSort completedRel)
  have hperm := List.perm_insertionSort keyGe
    (groupByKey (completedKey tzOffset)
      ((s.tasks.filter (fun t => t.is_done && t.done_at.isSome)).insertionSort completedRel))
  refine ⟨?_, ?_, ?_, ?_⟩
  · intro t
    constructor
    · rintro ⟨p, hp, ht⟩
      rw [hdef] at hp
      have hp2 := hperm.mem_iff.mp hp
      rw [hgr p hp2] at ht
      have h1 := (List.mem_filter.mp ht).1
      have h2 := (List.mem_insertionSort completedRel).mp h1
      have h3 := List.mem_filter.mp h2
      refine ⟨h3.1, ?_, ?_⟩
      · have := h3.2
        simp only [Bool.and_eq_true] at this
        exact this.1
      · have := h3.2
        simp only [Bool.and_eq_true] at this
        exact this.2
    · rintro ⟨hts, hd, hda⟩
      have htf : t ∈ s.tasks.filter (fun t => t.is_done && t.done_at.isSome) :=
        List.mem_filter.mpr ⟨hts, by simp [hd, hda]⟩
      have htd := (List.mem_insertionSort completedRel).mpr htf
      have hkey := hcomp t htd
      obtain ⟨p, hp, hpk⟩ := List.mem_map.mp hkey
      refine ⟨p, ?_, ?_⟩
      · rw [hdef]
        exact hperm.mem_iff.mpr hp
      · rw [hgr p hp]
        exact List.mem_filter.mpr ⟨htd, by simp [hpk]⟩
  · intro p hp t ht
    rw [hdef] at hp
    have hp2 := hperm.mem_iff.mp hp
    rw [hgr p hp2] at ht
    have := (List.mem_filter.mp ht).2
    simpa using this
  · have hsorted : List.Sorted keyGe
        ((groupByKey (completedKey tzOffset)
          ((s.tasks.filter (fun t => t.is_done && t.done_at.isSome)).insertionSort
            completedRel)).insertionSort keyGe) :=
      List.sorted_insertionSort keyGe _
    have h1 : ((render_completed_tasks tzOffset s).map Prod.fst).Pairwise
        (fun a b : Int => b ≤ a) := by
      rw [hdef]
      exact List.Pairwise.map Prod.fst (fun p q h => h) hsorted
    have h2 : ((render_completed_tasks tzOffset s).map Prod.fst).Nodup := by
      rw [hdef]
      exact ((hperm.map Prod.fst).nodup_iff).mpr hnd
    exact h1.imp₂ (fun a b hle hne => lt_of_le_of_ne hle (fun he => hne he.symm)) h2
  · intro p hp
    rw [hdef] at hp
    have hp2 := hperm.mem_iff.mp hp
    rw [hgr p hp2]
    have hsorted2 : ((s.tasks.filter (fun t => t.is_done && t.done_at.isSome)).insertionSort
        completedRel).Pairwise completedRel :=
      List.sorted_insertionSort completedRel _
    exact hsorted2.sublist (List.filter_sublist _)

/-- Completed at minute 600 with `display_order = 1`. -/
def tA : Task :=
  { id := 1, title := "A", due_date := 739050, is_done := true, done_at := some 600,
    created_at := 0, is_recurring := false, display_order := 1 }

/-- Completed later, at minute 660, with `display_order = 5`. -/
def tB : Task :=
  { id := 2, title := "B", due_date := 739050, is_done := true, done_at := some 660,
    created_at := 0, is_recurring := false, display_order := 5 }

/-- Store with two tasks completed on the same local calendar date. -/
def sC5 : Store := ⟨[tA, tB], 3⟩

/-- Counterexample refuting C5 as stated: the two tasks fall into the same
completion-date group, but the group lists the later-completed task
(display order 5) before the earlier one (display order 1) — ordered by
descending `done_at`, not by ascending `display_order`. -/
theorem C5_counterexample :
    ¬ (∀ p ∈ render_completed_tasks 0 sC5,
        p.2.Pairwise (fun a b : Task => a.display_order ≤ b.display_order)) := by
  decide

/-- Witness for C5 (amended) at a concrete store: task `tB` is shown
(membership direction of the first clause). -/
theorem C5_completed_view_witness :
    (tB ∈ sC5.tasks ∧ tB.is_done = true ∧ tB.done_at.isSome = true) ∧
    (∃ p ∈ render_completed_tasks 0 sC5, tB ∈ p.2) :=
  ⟨by decide, ((C5_completed_view 0 sC5).1 tB).mpr (by decide)⟩

/-! ### Claim C4 -/

/-- C4 (amended): in the all-tasks view, every bucket is keyed by its Friday
with Saturday/Sunday fields at +1/+2, and a task appears in a day sub-list
exactly when its due date equals that exact day and its computed week key
equals the bucket key; buckets are sorted strictly descending by Friday.  A
task due Friday–Sunday gets the Friday of its own weekend (roll back) and so
lands in exactly one sub-list of exactly one bucket; but a task due
Monday–Thursday gets the Friday 10–13 days **before** its due date (the
`weekday < 4` branch adds 7 to the backward offset instead of rolling
forward to the upcoming Friday) and consequently appears in **no** day
sub-list of any bucket. -/
theorem C4_all_tasks_view (s : Store) :
    (∀ p ∈ render_all_tasks s,
      p.2.friday_date = p.1 ∧ p.2.saturday_date = p.1 + 1 ∧ p.2.sunday_date = p.1 + 2 ∧
      ∀ t,
        (t ∈ p.2.friday_tasks ↔
          t ∈ s.tasks ∧ fridayOfWeek t.due_date = p.1 ∧ t.due_date = p.1) ∧
        (t ∈ p.2.saturday_tasks ↔
          t ∈ s.tasks ∧ fridayOfWeek t.due_date = p.1 ∧ t.due_date = p.1 + 1) ∧
        (t ∈ p.2.sunday_tasks ↔
          t ∈ s.tasks ∧ fridayOfWeek t.due_date = p.1 ∧ t.due_date = p.1 + 2)) ∧
    ((render_all_tasks s).map Prod.fst).Pairwise (fun a b => b < a) ∧
    (∀ t ∈ s.tasks, 4 ≤ t.due_date % 7 →
      fridayOfWeek t.due_date = t.due_date - (t.due_date % 7 - 4) ∧
      ∃ p ∈ render_all_tasks s, p.1 = fridayOfWeek t.due_date) ∧
    (∀ t ∈ s.tasks, t.due_date % 7 < 4 →
      fridayOfWeek t.due_date = t.due_date - (t.due_date % 7 + 10) ∧
      (∀ p ∈ render_all_tasks s,
        t ∉ p.2.friday_tasks ∧ t ∉ p.2.saturday_tasks ∧ t ∉ p.2.sunday_tasks)) := by
  have hdef : render_all_tasks s
      = ((groupByKey allTasksKey (s.tasks.insertionSort allTasksRel)).map
          mkWeekBucket).insertionSort keyGe := rfl
  obtain ⟨hnd, hcomp, hgr⟩ := groupByKey_inv allTasksKey (s.tasks.insertionSort allTasksRel)
  have hperm := List.perm_insertionSort keyGe
    ((groupByKey allTasksKey (s.tasks.insertionSort allTasksRel)).map mkWeekBucket)
  have hfw : ∀ d : Int, (4 ≤ d % 7 → fridayOfWeek d = d - (d % 7 - 4))
      ∧ (d % 7 < 4 → fridayOfWeek d = d - (d % 7 + 10)) := by
    intro d
    have h0 : 0 ≤ d % 7 := Int.emod_nonneg _ (by norm_num)
    have h1 : d % 7 < 7 := Int.emod_lt_of_pos _ (by norm_num)
    unfold fridayOfWeek
    dsimp only
    constructor
    · intro hw
      rw [if_neg (by omega)]
      omega
    · intro hw
      rw [if_pos (by omega)]
      omega
  have hclause1 : ∀ p ∈ render_all_tasks s,
      p.2.friday_date = p.1 ∧ p.2.saturday_date = p.1 + 1 ∧ p.2.sunday_date = p.1 + 2 ∧
      ∀ t,
        (t ∈ p.2.friday_tasks ↔
          t ∈ s.tasks ∧ fridayOfWeek t.due_date = p.1 ∧ t.due_date = p.1) ∧
        (t ∈ p.2.saturday_tasks ↔
          t ∈ s.tasks ∧ fridayOfWeek t.due_date = p.1 ∧ t.due_date = p.1 + 1) ∧
        (t ∈ p.2.sunday_tasks ↔
          t ∈ s.tasks ∧ fridayOfWeek t.due_date = p.1 ∧ t.due_date = p.1 + 2) := by
    intro p hp
    rw [hdef] at hp
    have hpb := hperm.mem_iff.mp hp
    obtain ⟨q, hq, hpq⟩ := List.mem_map.mp hpb
    subst hpq
    have hq2 := hgr q hq
    refine ⟨rfl, rfl, rfl, ?_⟩
    intro t
    refine ⟨?_, ?_, ?_⟩ <;>
    · simp only [mkWeekBucket, hq2, List.mem_filter, List.mem_insertionSort, beq_iff_eq,
        decide_eq_true_eq, allTasksKey]
      tauto
  refine ⟨hclause1, ?_, ?_, ?_⟩
  · have hkeys : (((groupByKey allTasksKey (s.tasks.insertionSort allTasksRel)).map
        mkWeekBucket).map Prod.fst)
        = (groupByKey allTasksKey (s.tasks.insertionSort allTasksRel)).map Prod.fst := by
      rw [List.map_map]
      apply List.map_congr_left
      intro q _
      rfl
    have h1 : ((render_all_tasks s).map Prod.fst).Pairwise (fun a b : Int => b ≤ a) := by
      rw [hdef]
      exact List.Pairwise.map Prod.fst (fun p q h => h) (List.sorted_insertionSort keyGe _)
    have h2 : ((render_all_tasks s).map Prod.fst).Nodup := by
      rw [hdef]
      refine ((hperm.map Prod.fst).nodup_iff).mpr ?_
      rw [hkeys]
      exact hnd
    exact h1.imp₂ (fun a b hle hne => lt_of_le_of_ne hle (fun he => hne he.symm)) h2
  · intro t ht hw
    refine ⟨(hfw t.due_date).1 hw, ?_⟩
    have htd : t ∈ s.tasks.insertionSort allTasksRel :=
      (List.mem_insertionSort allTasksRel).mpr ht
    have hkey := hcomp t htd
    obtain ⟨q, hq, hqk⟩ := List.mem_map.mp hkey
    refine ⟨mkWeekBucket q, ?_, ?_⟩
    · rw [hdef]
      exact hperm.mem_iff.mpr (List.mem_map_of_mem mkWeekBucket hq)
    · exact hqk
  · intro t ht hw
    refine ⟨(hfw t.due_date).2 hw, ?_⟩
    intro p hp
    have hc := (hclause1 p hp).2.2.2 t
    have h0 : 0 ≤ t.due_date % 7 := Int.emod_nonneg _ (by norm_num)
    have hffw := (hfw t.due_date).2 hw
    refine ⟨?_, ?_, ?_⟩
    · intro hmem
      obtain ⟨-, hk, hd⟩ := hc.1.mp hmem
      omega
    · intro hmem
      obtain ⟨-, hk, hd⟩ := hc.2.1.mp hmem
      omega
    · intro hmem
      obtain ⟨-, hk, hd⟩ := hc.2.2.mp hmem
      omega

/-- An open task due on Monday 2024-06-17 (day index 739053). -/
def tMon : Task :=
  { id := 1, title := "M", due_date := 739053, is_done := false, done_at := none,
    created_at := 0, is_recurring := false, display_order := 0 }

/-- Store with a single Monday task. -/
def sC4 : Store := ⟨[tMon], 2⟩

/-- Counterexample refuting C4 as stated: the Monday 2024-06-17 task is put
under week key 739043 (Friday 2024-06-07, ten days earlier) instead of the
upcoming Friday 739057 (2024-06-21), and it appears in no
friday/saturday/sunday sub-list at all. -/
theorem C4_counterexample :
    (render_all_tasks sC4).map Prod.fst = [739043] ∧
    (¬ ∃ p ∈ render_all_tasks sC4, p.1 = 739057) ∧
    (∀ p ∈ render_all_tasks sC4,
      tMon ∉ p.2.friday_tasks ∧ tMon ∉ p.2.saturday_tasks ∧ tMon ∉ p.2.sunday_tasks) := by
  decide

/-- An open task due on Friday 2024-06-14 (day index 739050). -/
def tFri : Task :=
  { id := 1, title := "F", due_date := 739050, is_done := false, done_at := none,
    created_at := 0, is_recurring := false, display_order := 0 }

/-- Store with a single Friday task. -/
def sC4w : Store := ⟨[tFri], 2⟩

/-- Witness for C4 (amended): the Friday task is keyed by its own date and a
bucket for it exists. -/
theorem C4_all_tasks_view_witness :
    (tFri ∈ sC4w.tasks ∧ 4 ≤ tFri.due_date % 7) ∧
    (fridayOfWeek tFri.due_date = tFri.due_date - (tFri.due_date % 7 - 4) ∧
      ∃ p ∈ render_all_tasks sC4w, p.1 = fridayOfWeek tFri.due_date) :=
  ⟨⟨by decide, by decide⟩,
    (C4_all_tasks_view sC4w).2.2.1 tFri (by decide) (by decide)⟩

end TodoHotel
